import Mathlib

/-!
Verification development for the product-card component
(`src/modules/product.component`-style file of the repository).

The TypeScript component is shallowly embedded: JSX sub-trees become plain
Lean records, optional (possibly `undefined`) inputs become `Option`s, and
the browser's `URL` / `URLSearchParams` query-string behaviour is embedded
as executable functions on `List Char`.  JavaScript truthiness of numbers,
strings and booleans is made explicit through `truthyNum`, `truthyStr`,
`truthyNat` and `truthyBool`.
-/

namespace ProductCardSpec

/-- Character list, the underlying data of a `String`. -/
abbrev LC := List Char

/-! ### Query-string machinery (embedding of `URL` / `URLSearchParams`)

`qsplit c l` splits `l` at every occurrence of `c` (like
`String.prototype.split`), `joinSep` is its inverse, and `splitAtFirst`
separates a URL into the part before the first `?` (the pathname) and the
part after it (the raw query). -/

/-- Prepend a character onto the first piece of a split result. -/
def consHead (a : Char) : List LC → List LC
  | [] => [[a]]
  | p :: ps => (a :: p) :: ps

/-- Split a character list at every occurrence of the separator `c`. -/
def qsplit (c : Char) : LC → List LC
  | [] => [[]]
  | a :: as => if a = c then [] :: qsplit c as else consHead a (qsplit c as)

/-- Join pieces with a single separator character between them. -/
def joinSep (c : Char) : List LC → LC
  | [] => []
  | [p] => p
  | p :: q :: ps => p ++ c :: joinSep c (q :: ps)

/-- Split at the first occurrence of `c`: the prefix before it and,
when `c` occurs, the remainder after it. -/
def splitAtFirst (c : Char) : LC → LC × Option LC
  | [] => ([], Option.none)
  | a :: as =>
    if a = c then ([], some as)
    else
      let r := splitAtFirst c as
      (a :: r.1, r.2)

theorem qsplit_ne_nil (c : Char) (l : LC) : qsplit c l ≠ [] := by
  induction l with
  | nil => simp [qsplit]
  | cons a as ih =>
    simp only [qsplit]
    split
    · simp
    · cases h : qsplit c as with
      | nil => exact absurd h ih
      | cons p ps => simp [consHead]

theorem joinSep_consHead (c a : Char) (r : List LC) :
    joinSep c (consHead a r) = a :: joinSep c r := by
  match r with
  | [] => simp [consHead, joinSep]
  | [p] => simp [consHead, joinSep]
  | p :: q :: ps => simp [consHead, joinSep]

theorem joinSep_qsplit (c : Char) (l : LC) : joinSep c (qsplit c l) = l := by
  induction l with
  | nil => simp [qsplit, joinSep]
  | cons a as ih =>
    simp only [qsplit]
    split
    · rename_i h
      subst h
      cases hq : qsplit a as with
      | nil => exact absurd hq (qsplit_ne_nil a as)
      | cons p ps =>
        rw [hq] at ih
        simp [joinSep, ih]
    · rw [joinSep_consHead, ih]

theorem consHead_append (a : Char) (r s : List LC) (hr : r ≠ []) :
    consHead a (r ++ s) = consHead a r ++ s := by
  cases r with
  | nil => exact absurd rfl hr
  | cons p ps => simp [consHead]

theorem qsplit_append (c : Char) (a b : LC) :
    qsplit c (a ++ c :: b) = qsplit c a ++ qsplit c b := by
  induction a with
  | nil => simp [qsplit]
  | cons x xs ih =>
    by_cases hx : x = c
    · subst hx
      simp [qsplit, ih]
    · simp only [List.cons_append, qsplit, if_neg hx, List.append_eq, ih]
      rw [consHead_append _ _ _ (qsplit_ne_nil c xs)]

theorem qsplit_of_not_mem (c : Char) (p : LC) (h : c ∉ p) : qsplit c p = [p] := by
  induction p with
  | nil => simp [qsplit]
  | cons a as ih =>
    simp only [List.mem_cons, not_or] at h
    have hac : ¬a = c := fun hh => h.1 hh.symm
    simp only [qsplit, if_neg hac, ih h.2, consHead]

theorem qsplit_joinSep (c : Char) (ps : List LC)
    (hps : ∀ p ∈ ps, c ∉ p) (hne : ps ≠ []) :
    qsplit c (joinSep c ps) = ps := by
  induction ps with
  | nil => exact absurd rfl hne
  | cons p rest ih =>
    cases rest with
    | nil =>
      simp only [joinSep]
      exact qsplit_of_not_mem c p (hps p (by simp))
    | cons q qs =>
      simp only [joinSep]
      rw [qsplit_append, qsplit_of_not_mem c p (hps p (by simp))]
      rw [ih (fun x hx => hps x (List.mem_cons_of_mem p hx)) (by simp)]
      simp

theorem not_mem_of_mem_qsplit (c : Char) (l : LC) (p : LC)
    (hp : p ∈ qsplit c l) : c ∉ p := by
  induction l generalizing p with
  | nil =>
    simp only [qsplit, List.mem_singleton] at hp
    subst hp; simp
  | cons a as ih =>
    simp only [qsplit] at hp
    split at hp
    · rcases List.mem_cons.mp hp with h | h
      · subst h; simp
      · exact ih p h
    · rename_i hne
      cases hq : qsplit c as with
      | nil => exact absurd hq (qsplit_ne_nil c as)
      | cons r rs =>
        rw [hq] at hp
        simp only [consHead] at hp
        rcases List.mem_cons.mp hp with h | h
        · subst h
          have hr : c ∉ r := ih r (by rw [hq]; exact List.mem_cons_self r rs)
          simp only [List.mem_cons, not_or]
          exact ⟨fun hca => hne hca.symm, hr⟩
        · exact ih p (by rw [hq]; exact List.mem_cons_of_mem r h)

theorem mem_of_mem_qsplit (c : Char) (l : LC) (p : LC)
    (hp : p ∈ qsplit c l) : ∀ x ∈ p, x ∈ l := by
  induction l generalizing p with
  | nil =>
    simp only [qsplit, List.mem_singleton] at hp
    subst hp; simp
  | cons a as ih =>
    simp only [qsplit] at hp
    split at hp
    · rcases List.mem_cons.mp hp with h | h
      · subst h; simp
      · exact fun x hx => List.mem_cons_of_mem a (ih p h x hx)
    · cases hq : qsplit c as with
      | nil => exact absurd hq (qsplit_ne_nil c as)
      | cons r rs =>
        rw [hq] at hp
        simp only [consHead] at hp
        rcases List.mem_cons.mp hp with h | h
        · subst h
          intro x hx
          rcases List.mem_cons.mp hx with h1 | h1
          · simp [h1]
          · exact List.mem_cons_of_mem a (ih r (by rw [hq]; exact List.mem_cons_self r rs) x h1)
        · exact fun x hx => List.mem_cons_of_mem a (ih p (by rw [hq]; exact List.mem_cons_of_mem r h) x hx)

theorem mem_joinSep (c : Char) (ps : List LC) (x : Char)
    (hx : x ∈ joinSep c ps) : x = c ∨ ∃ p ∈ ps, x ∈ p := by
  induction ps with
  | nil => simp [joinSep] at hx
  | cons p rest ih =>
    cases rest with
    | nil =>
      simp only [joinSep] at hx
      exact Or.inr ⟨p, by simp, hx⟩
    | cons q qs =>
      simp only [joinSep, List.mem_append, List.mem_cons] at hx
      rcases hx with h | h | h
      · exact Or.inr ⟨p, by simp, h⟩
      · exact Or.inl h
      · rcases ih h with h1 | ⟨r, hr, hxr⟩
        · exact Or.inl h1
        · exact Or.inr ⟨r, List.mem_cons_of_mem p hr, hxr⟩

theorem isPrefix_joinSep (c : Char) (p : LC) (ps : List LC) :
    p <+: joinSep c (p :: ps) := by
  cases ps with
  | nil => simp [joinSep]
  | cons q qs => simp only [joinSep]; exact ⟨c :: joinSep c (q :: qs), rfl⟩

theorem infixOf_of_mem_joinSep (c : Char) (ps : List LC) (p : LC)
    (hp : p ∈ ps) : p <:+: joinSep c ps := by
  induction ps with
  | nil => simp at hp
  | cons q rest ih =>
    rcases List.mem_cons.mp hp with h | h
    · subst h
      exact (isPrefix_joinSep c p rest).isInfix
    · cases rest with
      | nil => simp at h
      | cons r rs =>
        have h1 : p <:+: joinSep c (r :: rs) := ih h
        simp only [joinSep]
        exact h1.trans ((List.suffix_append (q ++ [c]) (joinSep c (r :: rs))).isInfix.trans
          (by rw [List.append_assoc]; simp))

theorem mem_qsplit_infixOf (c : Char) (l : LC) (p : LC)
    (hp : p ∈ qsplit c l) : p <:+: l := by
  have h := infixOf_of_mem_joinSep c (qsplit c l) p hp
  rwa [joinSep_qsplit] at h

theorem splitAtFirst_fst_not_mem (c : Char) (u : LC) :
    c ∉ (splitAtFirst c u).1 := by
  induction u with
  | nil => simp [splitAtFirst]
  | cons a as ih =>
    simp only [splitAtFirst]
    split
    · simp
    · rename_i h
      simp only [List.mem_cons, not_or]
      exact ⟨fun hca => h hca.symm, ih⟩

theorem splitAtFirst_concat (c : Char) (p r : LC) (hp : c ∉ p) :
    splitAtFirst c (p ++ c :: r) = (p, some r) := by
  induction p with
  | nil => simp [splitAtFirst]
  | cons a as ih =>
    simp only [List.mem_cons, not_or] at hp
    have hac : ¬a = c := fun hh => hp.1 hh.symm
    simp only [List.cons_append, splitAtFirst, if_neg hac, List.append_eq, ih hp.2]

theorem splitAtFirst_of_not_mem (c : Char) (u : LC) (h : c ∉ u) :
    splitAtFirst c u = (u, Option.none) := by
  induction u with
  | nil => simp [splitAtFirst]
  | cons a as ih =>
    simp only [List.mem_cons, not_or] at h
    have hac : ¬a = c := fun hh => h.1 hh.symm
    simp only [splitAtFirst, if_neg hac, ih h.2]

theorem splitAtFirst_eq (c : Char) (u : LC) :
    u = (splitAtFirst c u).1 ++
      (match (splitAtFirst c u).2 with
        | some r => c :: r
        | Option.none => []) := by
  induction u with
  | nil => simp [splitAtFirst]
  | cons a as ih =>
    simp only [splitAtFirst]
    split
    · rename_i h; subst h; simp
    · simpa using congrArg (a :: ·) ih

/-! ### Query parameter lists (embedding of `URLSearchParams`) -/

/-- Parse a raw query (without the leading question mark) into key/value
pairs, the way `URLSearchParams` does: split on ampersands, skip empty
pieces, split each piece at its first equals sign. -/
def parseQ (q : LC) : List (LC × LC) :=
  (qsplit '&' q).filterMap fun piece =>
    if piece = [] then Option.none
    else
      match qsplit '=' piece with
      | [] => Option.none
      | k :: rest => some (k, joinSep '=' rest)

/-- Serialize key/value pairs back into a raw query string, the way
`URLSearchParams.toString` does. -/
def serQ (ps : List (LC × LC)) : LC :=
  joinSep '&' (ps.map fun kv => kv.1 ++ '=' :: kv.2)

theorem parseQ_nil : parseQ [] = [] := rfl

theorem parseQ_append (a b : LC) :
    parseQ (a ++ '&' :: b) = parseQ a ++ parseQ b := by
  simp only [parseQ, qsplit_append, List.filterMap_append]

theorem serQ_single (k v : LC) : serQ [(k, v)] = k ++ '=' :: v := rfl

theorem parseQ_single (k v : LC) (hk1 : '&' ∉ k) (hk2 : '=' ∉ k)
    (hv : '&' ∉ v) : parseQ (k ++ '=' :: v) = [(k, v)] := by
  have hpiece : '&' ∉ k ++ '=' :: v := by
    simp only [List.mem_append, List.mem_cons, not_or]
    exact ⟨hk1, by decide, hv⟩
  have hne : ¬(k ++ '=' :: v = []) := by simp
  simp only [parseQ, qsplit_of_not_mem '&' _ hpiece, List.filterMap_cons,
    List.filterMap_nil, if_neg hne]
  rw [qsplit_append, qsplit_of_not_mem '=' k hk2]
  simp [joinSep_qsplit '=' v]

/-- Wellformedness of a parsed key/value pair: the pieces contain no
ampersand and the key no equals sign. -/
def wfPair (kv : LC × LC) : Prop := '&' ∉ kv.1 ∧ '=' ∉ kv.1 ∧ '&' ∉ kv.2

theorem parseQ_wf (q : LC) : ∀ kv ∈ parseQ q, wfPair kv := by
  intro kv hkv
  simp only [parseQ, List.mem_filterMap] at hkv
  obtain ⟨piece, hpiece, hf⟩ := hkv
  split at hf
  · exact absurd hf (by simp)
  · rename_i hne
    have hAmp : '&' ∉ piece := not_mem_of_mem_qsplit '&' q piece hpiece
    cases hq : qsplit '=' piece with
    | nil => exact absurd hq (qsplit_ne_nil '=' piece)
    | cons k rest =>
      rw [hq] at hf
      cases hf
      refine ⟨?_, ?_, ?_⟩
      · intro hmem
        exact hAmp (mem_of_mem_qsplit '=' piece k
          (by rw [hq]; exact List.mem_cons_self k rest) '&' hmem)
      · exact not_mem_of_mem_qsplit '=' piece k
          (by rw [hq]; exact List.mem_cons_self k rest)
      · intro hmem
        rcases mem_joinSep '=' rest '&' hmem with h | ⟨p, hp, hxp⟩
        · exact absurd h (by decide)
        · exact hAmp (mem_of_mem_qsplit '=' piece p
            (by rw [hq]; exact List.mem_cons_of_mem k hp) '&' hxp)

theorem parseQ_serQ (ps : List (LC × LC)) (hwf : ∀ kv ∈ ps, wfPair kv) :
    parseQ (serQ ps) = ps := by
  induction ps with
  | nil => rfl
  | cons kv rest ih =>
    obtain ⟨k, v⟩ := kv
    obtain ⟨h1, h2, h3⟩ := hwf (k, v) (by simp)
    cases rest with
    | nil =>
      simpa using parseQ_single k v h1 h2 h3
    | cons kv2 rest2 =>
      have hstep : serQ ((k, v) :: kv2 :: rest2)
          = (k ++ '=' :: v) ++ '&' :: serQ (kv2 :: rest2) := by
        simp [serQ, joinSep, List.map_cons]
      rw [hstep, parseQ_append, parseQ_single k v h1 h2 h3,
        ih (fun x hx => hwf x (List.mem_cons_of_mem _ hx))]
      simp

/-- The key of every parsed parameter is an infix of the query string. -/
theorem parseQ_key_infixOf (q : LC) (kv : LC × LC) (hkv : kv ∈ parseQ q) :
    kv.1 <:+: q := by
  simp only [parseQ, List.mem_filterMap] at hkv
  obtain ⟨piece, hpiece, hf⟩ := hkv
  split at hf
  · exact absurd hf (by simp)
  · cases hq : qsplit '=' piece with
    | nil => exact absurd hq (qsplit_ne_nil '=' piece)
    | cons k rest =>
      rw [hq] at hf
      cases hf
      have hk : (k : LC) <+: piece := by
        have hj : joinSep '=' (k :: rest) = piece := by
          rw [← hq, joinSep_qsplit]
        rw [← hj]
        exact isPrefix_joinSep '=' k rest
      exact (hk.isInfix).trans (mem_qsplit_infixOf '&' q piece hpiece)

/-! ### String primitives that evaluate in the kernel

`String.toLower` and `String.trim` are defined through byte positions and
do not reduce, so the embedding works on the character list instead. -/

/-- Boolean prefix test on character lists. -/
def isPre : LC → LC → Bool
  | [], _ => true
  | _ :: _, [] => false
  | a :: as, b :: bs => a = b && isPre as bs

theorem isPre_iff (p s : LC) : isPre p s = true ↔ p <+: s := by
  induction p generalizing s with
  | nil => simp [isPre]
  | cons a as ih =>
    cases s with
    | nil => simp [isPre]
    | cons b bs =>
      simp only [isPre, Bool.and_eq_true, decide_eq_true_eq, ih, List.cons_prefix_cons]

/-- Boolean substring test, the embedding of `String.prototype.includes`. -/
def hasInfix : LC → LC → Bool
  | [], pat => isPre pat []
  | a :: t, pat => isPre pat (a :: t) || hasInfix t pat

theorem hasInfix_iff (s pat : LC) : hasInfix s pat = true ↔ pat <:+: s := by
  induction s with
  | nil => simp [hasInfix, isPre_iff]
  | cons a t ih =>
    simp only [hasInfix, Bool.or_eq_true, isPre_iff, ih, List.infix_cons_iff]

/-- Lowercasing, the embedding of `toLocaleLowerCase` for ASCII data. -/
def toLowerS (s : String) : String := ⟨s.data.map Char.toLower⟩

/-- Embedding of `StringExtensions.isNullOrWhitespace`: `undefined`, empty
and all-whitespace strings count as blank (`value.trim().length === 0`). -/
def isNullOrWhitespace (s : Option String) : Bool :=
  match s with
  | Option.none => true
  | some v => v.data.all Char.isWhitespace

/-! ### URL embedding

A page URL is modelled as its pathname followed by an optional query
string; the browser `URL` object's `pathname`/`search` decomposition is
`splitAtFirst '?'`. -/

/-- The pathname part of a URL string (everything before the first `?`). -/
def urlPathL (u : LC) : LC := (splitAtFirst '?' u).1

/-- The raw query of a URL string (everything after the first `?`). -/
def urlQueryL (u : LC) : LC := ((splitAtFirst '?' u).2).getD []

/-- Embedding of assigning to `URL.search`: a leading question mark is
stripped, an empty body clears the query, anything else is stored with a
single leading question mark. -/
def jsAssignSearch (sv : LC) : LC :=
  match sv with
  | [] => []
  | a :: r => if a = '?' then (if r = [] then [] else '?' :: r) else '?' :: a :: r

/-- Embedding of `updateProductUrl` (product.component, lines 111-121):
append `queryString` onto the existing query (`sourceUrl.search`) with an
ampersand, or start a new query, and return pathname plus search. -/
def updateProductUrlL (u qs : LC) : LC :=
  urlPathL u ++
    jsAssignSearch (if urlQueryL u = [] then qs else '?' :: (urlQueryL u ++ '&' :: qs))

/-- String-level wrapper for `updateProductUrlL`. -/
def updateProductUrl (productDetailsPageUrl queryString : String) : String :=
  ⟨updateProductUrlL productDetailsPageUrl.data queryString.data⟩

/-- Embedding of `new URL(u, base)` followed by `searchParams.delete(k)`
and serialization (origin dropped, as the surrounding code only ever keeps
pathname plus search). -/
def deleteParamL (u k : LC) : LC :=
  let kept := (parseQ (urlQueryL u)).filter fun kv => decide ¬(kv.1 = k)
  urlPathL u ++ (if kept = [] then [] else '?' :: serQ kept)

/-- Observation function: the value of query parameter `k` of a URL, as
`URLSearchParams.get` would report it. -/
def getQueryParam (u k : String) : Option String :=
  ((parseQ (urlQueryL u.data)).find? fun kv => decide (kv.1 = k.data)).map
    fun kv => (⟨kv.2⟩ : String)

/-- All query parameters of a URL carrying the key `k`. -/
def paramsWithKey (u k : String) : List (LC × LC) :=
  (parseQ (urlQueryL u.data)).filter fun kv => decide (kv.1 = k.data)

/-- Embedding of `String.prototype.includes` on strings. -/
def strIncludes (s pat : String) : Bool := hasInfix s.data pat.data

/-! ### Facts about the URL embedding -/

theorem urlPathL_not_mem (u : LC) : '?' ∉ urlPathL u :=
  splitAtFirst_fst_not_mem '?' u

theorem urlPathL_of_append (path body : LC) (hp : '?' ∉ path) :
    urlPathL (path ++ '?' :: body) = path := by
  simp [urlPathL, splitAtFirst_concat '?' path body hp]

theorem urlQueryL_of_append (path body : LC) (hp : '?' ∉ path) :
    urlQueryL (path ++ '?' :: body) = body := by
  simp [urlQueryL, splitAtFirst_concat '?' path body hp]

theorem urlPathL_of_plain (path : LC) (hp : '?' ∉ path) :
    urlPathL path = path := by
  simp [urlPathL, splitAtFirst_of_not_mem '?' path hp]

theorem urlQueryL_of_plain (path : LC) (hp : '?' ∉ path) :
    urlQueryL path = [] := by
  simp [urlQueryL, splitAtFirst_of_not_mem '?' path hp]

theorem urlQueryL_infixOf (u : LC) : urlQueryL u <:+: u := by
  rcases h : (splitAtFirst '?' u).2 with _ | r
  · simp [urlQueryL, h]
  · have he := splitAtFirst_eq '?' u
    rw [h] at he
    simp only [urlQueryL, h, Option.getD_some]
    refine ⟨(splitAtFirst '?' u).1 ++ ['?'], [], ?_⟩
    rw [List.append_nil, List.append_assoc, List.singleton_append]
    exact he.symm

/-- Effect of `updateProductUrlL` on parsed query parameters: the new
parameters are the old ones followed by the parse of the appended query
string. -/
theorem updateProductUrlL_spec (u qs : LC) (hqs : qs ≠ [])
    (hq0 : ∀ r, qs ≠ '?' :: r) :
    urlPathL (updateProductUrlL u qs) = urlPathL u ∧
    parseQ (urlQueryL (updateProductUrlL u qs))
      = parseQ (urlQueryL u) ++ parseQ qs := by
  have hpath : '?' ∉ urlPathL u := urlPathL_not_mem u
  rcases hq : urlQueryL u with _ | ⟨x, xs⟩
  · have hjs : jsAssignSearch qs = '?' :: qs := by
      cases qs with
      | nil => exact absurd rfl hqs
      | cons a r =>
        have ha : ¬(a = '?') := fun h => hq0 r (by rw [h])
        simp [jsAssignSearch, ha]
    rw [updateProductUrlL, hq, if_pos rfl, hjs]
    refine ⟨urlPathL_of_append _ _ hpath, ?_⟩
    rw [urlQueryL_of_append _ _ hpath, parseQ_nil, List.nil_append]
  · have hne : ¬(x :: xs = ([] : LC)) := by simp
    have hjs : jsAssignSearch ('?' :: ((x :: xs) ++ '&' :: qs))
        = '?' :: ((x :: xs) ++ '&' :: qs) := by
      simp [jsAssignSearch]
    rw [updateProductUrlL, hq, if_neg hne, hjs]
    refine ⟨urlPathL_of_append _ _ hpath, ?_⟩
    rw [urlQueryL_of_append _ _ hpath]
    exact parseQ_append (x :: xs) qs

/-- Effect of `deleteParamL` on parsed query parameters: exactly the
parameters keyed by `k` disappear. -/
theorem deleteParamL_spec (u k : LC) :
    urlPathL (deleteParamL u k) = urlPathL u ∧
    parseQ (urlQueryL (deleteParamL u k))
      = (parseQ (urlQueryL u)).filter fun kv => decide ¬(kv.1 = k) := by
  have hpath : '?' ∉ urlPathL u := urlPathL_not_mem u
  set kept := (parseQ (urlQueryL u)).filter fun kv => decide ¬(kv.1 = k) with hkept
  have hwf : ∀ kv ∈ kept, wfPair kv := by
    intro kv hkv
    exact parseQ_wf (urlQueryL u) kv (List.mem_of_mem_filter hkv)
  by_cases h : kept = []
  · simp only [deleteParamL, ← hkept, if_pos h, List.append_nil]
    exact ⟨urlPathL_of_plain _ hpath,
      by rw [urlQueryL_of_plain _ hpath, parseQ_nil, h]⟩
  · simp only [deleteParamL, ← hkept, if_neg h]
    refine ⟨urlPathL_of_append _ _ hpath, ?_⟩
    rw [urlQueryL_of_append _ _ hpath, parseQ_serQ kept hwf]

/-- If the key does not occur as a substring of the URL, no parsed query
parameter carries it. -/
theorem no_key_of_not_includes (u k : LC) (h : hasInfix u k = false) :
    ∀ kv ∈ parseQ (urlQueryL u), kv.1 ≠ k := by
  intro kv hkv hke
  have hinf : kv.1 <:+: urlQueryL u := parseQ_key_infixOf _ kv hkv
  have hku : k <:+: u := by
    rw [← hke]
    exact hinf.trans (urlQueryL_infixOf u)
  rw [(hasInfix_iff u k).mpr hku] at h
  simp at h

theorem find?_filter_ne_key (ps : List (LC × LC)) (d k : LC) (h : d ≠ k) :
    ((ps.filter fun kv => decide ¬(kv.1 = k)).find? fun kv => decide (kv.1 = d))
      = ps.find? fun kv => decide (kv.1 = d) := by
  induction ps with
  | nil => rfl
  | cons kv rest ih =>
    by_cases hk : kv.1 = k
    · have hnd : ¬(kv.1 = d) := fun hd => h (by rw [← hd, hk])
      rw [List.filter_cons_of_neg (by simp [hk]), ih,
        List.find?_cons_of_neg _ (by simp [hnd])]
    · by_cases hd : kv.1 = d
      · rw [List.filter_cons_of_pos (by simp [hk]),
          List.find?_cons_of_pos _ (by simp [hd]),
          List.find?_cons_of_pos _ (by simp [hd])]
      · rw [List.filter_cons_of_pos (by simp [hk]),
          List.find?_cons_of_neg _ (by simp [hd]),
          List.find?_cons_of_neg _ (by simp [hd]), ih]

theorem find?_filtered_key_none (ps : List (LC × LC)) (k : LC) :
    ((ps.filter fun kv => decide ¬(kv.1 = k)).find? fun kv => decide (kv.1 = k))
      = Option.none := by
  rw [List.find?_eq_none]
  intro kv hkv
  have := List.of_mem_filter hkv
  simp only [decide_eq_true_eq] at this
  simp [this]

/-! ### JavaScript truthiness and small helpers -/

/-- Truthiness of an optional JS number (`undefined` and `0` are falsy). -/
def truthyNum (x : Option ℚ) : Bool :=
  match x with
  | some q => decide (q ≠ 0)
  | Option.none => false

/-- Truthiness of an optional JS integer count. -/
def truthyNat (x : Option Nat) : Bool :=
  match x with
  | some n => decide (n ≠ 0)
  | Option.none => false

/-- Truthiness of an optional JS string (`undefined` and `""` are falsy). -/
def truthyStr (x : Option String) : Bool :=
  match x with
  | some s => decide (s ≠ "")
  | Option.none => false

/-- Truthiness of an optional JS boolean (only `true` is truthy). -/
def truthyBool (x : Option Bool) : Bool := x = some true

/-- Embedding of `ArrayExtensions.hasElements` on an optional array. -/
def hasElementsO {α : Type} (x : Option (List α)) : Bool :=
  match x with
  | some l => !l.isEmpty
  | Option.none => false

/-- Decimal digit character. -/
def digitChar (d : Nat) : Char := Char.ofNat (48 + d)

/-- Fuelled digit printer; the fuel is an upper bound on the digit
count, so it is never exhausted when called through `natDigits`. -/
def natDigitsAux : Nat → Nat → LC
  | 0, _ => []
  | fuel + 1, n =>
    if n < 10 then [digitChar n]
    else natDigitsAux fuel (n / 10) ++ [digitChar (n % 10)]

/-- Decimal representation of a natural number (the embedding of JS
number-to-string coercion for integers). -/
def natDigits (n : Nat) : LC := natDigitsAux (n + 1) n

/-- String form of `natDigits`. -/
def natToStr (n : Nat) : String := ⟨natDigits n⟩

theorem natDigits_ne_nil (n : Nat) : natDigits n ≠ [] := by
  rw [natDigits, natDigitsAux]
  split <;> simp

/-- Embedding of `Number.prototype.toFixed(2)` on the rational model of a
JS number: sign, integer part, dot, two fraction digits. -/
def toFixed2 (q : ℚ) : String :=
  let cents : ℤ := round (|q| * 100)
  let ip := cents / 100
  let fp := (cents % 100).toNat
  (if q < 0 ∧ cents ≠ 0 then "-" else "") ++ natToStr ip.toNat ++ "." ++
    (if fp < 10 then "0" else "") ++ natToStr fp

/-- Numeric value of a digit run. -/
def digitsVal (ds : LC) : Nat :=
  ds.foldl (fun n c => n * 10 + (c.toNat - 48)) 0

/-- Parse a placeholder body following an opening brace: a nonempty digit
run then a closing brace; returns the index and the remaining input. -/
def parsePlaceholder (l : LC) : Option (Nat × LC) :=
  match l.dropWhile (fun c => c.isDigit) with
  | b :: tail =>
    if (b == Char.ofNat 125) && !(l.takeWhile (fun c => c.isDigit)).isEmpty
    then some (digitsVal (l.takeWhile fun c => c.isDigit), tail)
    else Option.none
  | [] => Option.none

theorem parsePlaceholder_length (l : LC) (i : Nat) (t : LC)
    (h : parsePlaceholder l = some (i, t)) : t.length < l.length := by
  have hsub : ∀ b tail, l.dropWhile (fun c => c.isDigit) = b :: tail →
      tail.length < l.length := by
    intro b tail hd
    have hle := (l.dropWhile_sublist (fun c => c.isDigit)).length_le
    rw [hd] at hle
    simp only [List.length_cons] at hle
    omega
  unfold parsePlaceholder at h
  rcases hd : l.dropWhile (fun c => c.isDigit) with _ | ⟨b, tail⟩ <;> rw [hd] at h
  · exact absurd h (by simp)
  · have h2 : (if (b == Char.ofNat 125
        && !(l.takeWhile (fun c => c.isDigit)).isEmpty) = true
        then some (digitsVal (l.takeWhile fun c => c.isDigit), tail)
        else (Option.none : Option (Nat × LC))) = some (i, t) := h
    cases hbb : (b == Char.ofNat 125 && !(l.takeWhile (fun c => c.isDigit)).isEmpty) with
    | false =>
      rw [hbb] at h2
      simp at h2
    | true =>
      rw [hbb] at h2
      simp only [eq_self_iff_true, if_true, Option.some.injEq, Prod.mk.injEq] at h2
      rw [← h2.2]
      exact hsub b tail hd

/-- Embedding of the `format` helper from the utilities package: scan the
template and substitute positional placeholders (an index in braces) by
the corresponding argument; unmatched placeholders stay verbatim. -/
def formatL (l : LC) (args : List LC) : LC :=
  match l with
  | [] => []
  | c :: rest =>
    if c = Char.ofNat 123 then
      match hp : parsePlaceholder rest with
      | some (i, tail) =>
        match args[i]? with
        | some a => a ++ formatL tail args
        | Option.none => c :: formatL rest args
      | Option.none => c :: formatL rest args
    else c :: formatL rest args
termination_by l.length
decreasing_by
  all_goals simp_wf
  all_goals try omega
  exact Nat.lt_succ_of_lt (parsePlaceholder_length _ _ _ (by assumption))

/-- String-level `format`. -/
def formatS (template : String) (args : List String) : String :=
  ⟨formatL template.data (args.map String.data)⟩

theorem formatL_ne_nil (l : LC) (args : List LC) (hl : l ≠ [])
    (hargs : ∀ a ∈ args, a ≠ []) : formatL l args ≠ [] := by
  cases l with
  | nil => exact absurd rfl hl
  | cons c rest =>
    rw [formatL]
    split
    · rcases hp : parsePlaceholder rest with _ | ⟨i, tail⟩
      · simp
      · simp only
        rcases ha : args[i]? with _ | a
        · simp
        · have : a ≠ [] := hargs a (by
            have := List.getElem?_mem ha
            exact this)
          simp only
          intro hcontra
          rcases List.append_eq_nil.mp hcontra with ⟨h1, _⟩
          exact this h1
    · simp

/-! ### Retail data model (from `@msdyn365-commerce/retail-proxy` and
`commerce-entities`, as consumed by the component) -/

/-- Dimension type names (string enum `DimensionTypes`). -/
def DimensionTypes.color : String := "color"

/-- The `none` member of the `DimensionTypes` string enum. -/
def DimensionTypes.noDimension : String := "none"

/-- An attribute swatch record. -/
structure AttributeSwatch where
  SwatchValue : Option String
  SwatchColorHexCode : Option String
  SwatchImageUrl : Option String
  ProductImageUrls : Option (List String)
  IsDefault : Option Bool
deriving DecidableEq

/-- A product attribute value with its swatches. -/
structure AttributeValue where
  KeyName : Option String
  RecordId : Option Nat
  Swatches : Option (List AttributeSwatch)
deriving DecidableEq

/-- A product search result record (the fields the component reads). -/
structure ProductSearchResult where
  RecordId : Nat
  Name : Option String
  Description : Option String
  ItemId : Option String
  BasePrice : Option ℚ
  Price : Option ℚ
  MaxVariantPrice : Option ℚ
  MinVariantPrice : Option ℚ
  PrimaryImageUrl : Option String
  AverageRating : Option ℚ
  TotalRatings : Option Nat
  DefaultUnitOfMeasure : Option String
  MasterProductId : Option Nat
  AttributeValues : Option (List AttributeValue)
  ExtensionProperties : Option (List String)
deriving DecidableEq

/-- A per-dimension availability entry
(`IProductsDimensionsAvailabilities`). -/
structure DimAvail where
  masterProductId : Option Nat
  value : Option String
  isDisabled : Option Bool
deriving DecidableEq

/-- A swatch item handed to the swatch sub-component (`ISwatchItem`). -/
structure ISwatchItem where
  itemId : String
  value : String
  dimensionType : String
  colorHexCode : Option String
  imageUrl : Option String
  productImageUrls : Option (List String)
  isDefault : Option Bool
  swatchItemAriaLabel : String
  isDisabled : Option Bool
deriving DecidableEq

/-- Site configuration and framework context consumed by the component:
`app.config` flags together with the external helpers
(`checkIfShouldDisplayAsSwatch`, `generateImageUrl`,
`getProductPageUrlSync`, `cultureFormatter.formatCurrency`) with the
request context baked in. -/
structure SiteConfig where
  dimensionToPreSelectInProductCard : String
  enableStockCheck : Bool
  hideRating : Bool
  unitOfMeasureDisplayType : Option String
  shouldDisplayAsSwatch : String → Bool
  generateImageUrl : Option String → Option String
  getProductPageUrlSync : String → Nat → String
  formatCurrency : Option ℚ → String

/-! ### Embeddings of the component's helper functions -/

/-- Embedding of `getDefaultColorSwatchSelected` (lines 128-142): find the
color attribute, and inside it the swatch flagged `IsDefault`, falling
back to the first swatch. -/
def getDefaultColorSwatchSelected (productData : Option ProductSearchResult) :
    Option AttributeSwatch :=
  match productData with
  | Option.none => Option.none
  | some p =>
    match p.AttributeValues with
    | Option.none => Option.none
    | some attrs =>
      match attrs.find? fun a =>
          decide ((a.KeyName.map toLowerS) = some DimensionTypes.color) with
      | Option.none => Option.none
      | some attr =>
        match attr.Swatches with
        | some (s :: ss) =>
          some ((((s :: ss).find? fun i => decide (i.IsDefault = some true))).getD s)
        | _ => Option.none

/-- Embedding of `getProductImageUrlFromDefaultColorSwatch`
(lines 150-160). -/
def getProductImageUrlFromDefaultColorSwatch (cfg : SiteConfig)
    (productData : Option ProductSearchResult) : Option String :=
  if cfg.dimensionToPreSelectInProductCard = DimensionTypes.noDimension then
    productData.bind ProductSearchResult.PrimaryImageUrl
  else
    match getDefaultColorSwatchSelected productData with
    | some sw =>
      match sw.ProductImageUrls with
      | some (u :: _) => cfg.generateImageUrl (some u)
      | _ => productData.bind ProductSearchResult.PrimaryImageUrl
    | Option.none => productData.bind ProductSearchResult.PrimaryImageUrl

/-- The image the card initially renders (line 192): the swatch-derived
image with the JS `??` fallback onto the primary image. -/
def initialProductImageUrl (cfg : SiteConfig)
    (productData : Option ProductSearchResult) : Option String :=
  (getProductImageUrlFromDefaultColorSwatch cfg productData).or
    (productData.bind ProductSearchResult.PrimaryImageUrl)

/-- Embedding of `getProductPageUrlFromDefaultSwatch` (lines 169-186). -/
def getProductPageUrlFromDefaultSwatch (cfg : SiteConfig) (productUrl : String)
    (productData : Option ProductSearchResult) : String :=
  if cfg.dimensionToPreSelectInProductCard = DimensionTypes.noDimension then
    productUrl
  else
    match getDefaultColorSwatchSelected productData with
    | Option.none => productUrl
    | some sw =>
      match sw.SwatchValue with
      | Option.none => productUrl
      | some sv =>
        if sv = "" then productUrl
        else updateProductUrl productUrl ("color=" ++ sv)

/-! ### Component state and the swatch interaction callback -/

/-- Embedding of `Dictionary.setValue`: keyed update of an association
list. -/
def dictSet (l : List (String × ISwatchItem)) (k : String) (v : ISwatchItem) :
    List (String × ISwatchItem) :=
  (k, v) :: l.filter fun kv => decide ¬(kv.1 = k)

/-- The component's mutable state: the two `useState` cells and the
selection dictionary. -/
structure CardState where
  productPageUrl : String
  productImageUrl : Option String
  selectedSwatchItems : List (String × ISwatchItem)
deriving DecidableEq

/-- First element of an optional list, as `hasElements(l) ? l[0] :
undefined` computes it. -/
def headOfOpt (o : Option (List String)) : Option String :=
  match o with
  | some (u :: _) => some u
  | _ => Option.none

/-- Embedding of the `updatePageAndImageUrl` callback (lines 205-231):
record the selection, bail out on blank values, rewrite the page URL's
query parameter for the selected dimension, and recompute the image for
color selections. -/
def updatePageAndImageUrl (cfg : SiteConfig) (st : CardState)
    (swatchItem : ISwatchItem) : CardState :=
  let selected := dictSet st.selectedSwatchItems swatchItem.dimensionType swatchItem
  if isNullOrWhitespace (some swatchItem.value) then
    { st with selectedSwatchItems := selected }
  else
    let queryString := swatchItem.dimensionType ++ "=" ++ swatchItem.value
    let productPageUrlWithSwatch :=
      if strIncludes st.productPageUrl swatchItem.dimensionType then
        updateProductUrl
          ⟨deleteParamL st.productPageUrl.data swatchItem.dimensionType.data⟩
          queryString
      else updateProductUrl st.productPageUrl queryString
    let st1 := { st with
      selectedSwatchItems := selected
      productPageUrl := productPageUrlWithSwatch }
    if swatchItem.dimensionType = DimensionTypes.color then
      { st1 with
        productImageUrl := cfg.generateImageUrl (headOfOpt swatchItem.productImageUrls) }
    else st1

/-! ### Swatch rows (the `swatchItems` computation, lines 237-280) -/

/-- A row of swatches for one attribute. -/
structure SwatchRow where
  recordId : Option Nat
  swatches : List ISwatchItem
deriving DecidableEq

/-- Embedding of the per-swatch record construction inside `swatchItems`
(lines 253-269). -/
def mkSwatchItem (cfg : SiteConfig) (dimensionAvailabilities : Option (List DimAvail))
    (swatchItemAriaLabel : Option String) (recordId : Option Nat)
    (dimensionTypeValue : String) (sw : AttributeSwatch) : ISwatchItem :=
  { itemId := (match recordId with
      | some r => natToStr r
      | Option.none => "") ++ "-" ++ dimensionTypeValue ++ "-" ++ (sw.SwatchValue.getD "")
    value := sw.SwatchValue.getD ""
    dimensionType := dimensionTypeValue
    colorHexCode := sw.SwatchColorHexCode
    imageUrl := sw.SwatchImageUrl
    productImageUrls := sw.ProductImageUrls
    isDefault := sw.IsDefault
    swatchItemAriaLabel :=
      if truthyStr swatchItemAriaLabel then
        formatS (swatchItemAriaLabel.getD "") [dimensionTypeValue]
      else ""
    isDisabled :=
      if cfg.enableStockCheck then
        match dimensionAvailabilities with
        | some l =>
          (l.find? fun da => decide (da.value = some (sw.SwatchValue.getD ""))).bind
            DimAvail.isDisabled
        | Option.none => Option.none
      else some false }

/-- Embedding of the body of the `swatchItems` map for one attribute
value: `null` when the dimension should not display as a swatch,
otherwise the swatch list, with the first color swatch promoted to
default under pre-selection when none is flagged. -/
def swatchRowOf (cfg : SiteConfig) (dimensionAvailabilities : Option (List DimAvail))
    (swatchItemAriaLabel : Option String) (item : AttributeValue) :
    Option SwatchRow :=
  let dimensionTypeValue := (item.KeyName.map toLowerS).getD ""
  if cfg.shouldDisplayAsSwatch dimensionTypeValue = false then Option.none
  else
    let swatches := (item.Swatches.getD []).map
      (mkSwatchItem cfg dimensionAvailabilities swatchItemAriaLabel item.RecordId
        dimensionTypeValue)
    let swatches2 :=
      if cfg.dimensionToPreSelectInProductCard ≠ DimensionTypes.noDimension
          ∧ swatches ≠ []
          ∧ (swatches.any fun s => truthyBool s.isDefault) = false
          ∧ dimensionTypeValue = DimensionTypes.color then
        match swatches with
        | s :: ss => { s with isDefault := some true } :: ss
        | [] => []
      else swatches
    some { recordId := item.RecordId, swatches := swatches2 }

/-- Embedding of `swatchItems` (lines 237-280):
`ArrayExtensions.validValues(product.AttributeValues?.map(...))`. -/
def swatchItemsOf (cfg : SiteConfig) (dimensionAvailabilities : Option (List DimAvail))
    (swatchItemAriaLabel : Option String) (product : ProductSearchResult) :
    List SwatchRow :=
  match product.AttributeValues with
  | Option.none => []
  | some attrs =>
    attrs.filterMap (swatchRowOf cfg dimensionAvailabilities swatchItemAriaLabel)

/-! ### Rendered views

JSX sub-trees are embedded as records carrying the data the markup
shows; a `null` render is `Option.none`. -/

/-- The price record assembled by `renderPrice` (`ProductPrice`). -/
structure ProductPrice where
  BasePrice : Option ℚ
  AdjustedPrice : Option ℚ
  CustomerContextualPrice : Option ℚ
  MaxVariantPrice : Option ℚ
  MinVariantPrice : Option ℚ
deriving DecidableEq

/-- Resources forwarded to the price component. -/
structure PriceResources where
  priceRangeSeparator : Option String
deriving DecidableEq

/-- The rendered price component. -/
structure PriceComponentView where
  id : String
  typeName : String
  price : ProductPrice
  savingsText : Option String
  freePriceText : Option String
  originalPriceText : Option String
  currentPriceText : Option String
  isPriceMinMaxEnabled : Option Bool
  priceResources : Option PriceResources
deriving DecidableEq

/-- The rendered rating component. -/
structure RatingComponentView where
  id : String
  typeName : String
  avgRating : ℚ
  ratingCount : Option String
  ariaLabel : String
  ratingCountAriaLabel : String
deriving DecidableEq

/-- The rendered unit-of-measure fragment. -/
structure UnitOfMeasureView where
  unitOfMeasure : String
deriving DecidableEq

/-- The rendered availability fragment. -/
structure AvailabilityView where
  label : String
deriving DecidableEq

/-- The rendered description paragraph. -/
structure DescriptionView where
  text : Option String
deriving DecidableEq

/-- Image settings forwarded to the image component. -/
structure ImageSettings where
  cropFocalRegion : Option Bool
deriving DecidableEq

/-- Grid settings from the request context (payload irrelevant to the
claims). -/
structure GridSettings where
  settingsTag : Nat
deriving DecidableEq

/-- The rendered product placement image. -/
structure ImageView where
  src : String
  altText : String
  fallBackSrc : Option String
  imageSettings : ImageSettings
deriving DecidableEq

/-- The minimal product record handed to the add-to-cart component
(`SimpleProduct`, lines 556-569). -/
structure SimpleProduct where
  RecordId : Nat
  ItemId : Option String
  Name : Option String
  Description : Option String
  ProductTypeValue : Nat
  DefaultUnitOfMeasure : Option String
  BasePrice : Option ℚ
  Price : Option ℚ
  AdjustedPrice : Option ℚ
  MasterProductId : Option Nat
  PrimaryImageUrl : Option String
  ExtensionProperties : Option (List String)
deriving DecidableEq

/-- The rendered add-to-cart sub-component. -/
structure CartButtonView where
  addToCartText : String
  outOfStockText : String
  hasAvailableProducts : Option Bool
  availableQuantity : ℚ
  product1 : SimpleProduct
deriving DecidableEq

/-! ### Sub-renderers -/

/-- Embedding of `renderProductUnitOfMeasure` (lines 295-304). -/
def renderProductUnitOfMeasure (unitOfMeasure : Option String) :
    Option UnitOfMeasureView :=
  if truthyStr unitOfMeasure = false then Option.none
  else some { unitOfMeasure := unitOfMeasure.getD "" }

/-- Embedding of `renderProductAvailability` (lines 311-321). -/
def renderProductAvailability (inventoryAvailabilityLabel : Option String) :
    Option AvailabilityView :=
  if truthyStr inventoryAvailabilityLabel = false then Option.none
  else some { label := inventoryAvailabilityLabel.getD "" }

/-- Embedding of `renderDescription` (lines 511-513): always produces the
paragraph element, even for an absent description. -/
def renderDescription (description : Option String) : Option DescriptionView :=
  some { text := description }

/-- Embedding of `renderPrice` (lines 469-504): always produces the price
component; zero or absent variant bounds fall back to the adjusted
price. -/
def renderPrice (typeName id : String)
    (basePrice adjustedPrice maxVariantPrice minVariantPrice : Option ℚ)
    (savingsPriceResourceText freePriceResourceText
      originalPriceResourceText currentPriceResourceText : Option String)
    (isPriceMinMaxEnabled : Option Bool) (priceResources : Option PriceResources) :
    Option PriceComponentView :=
  some
    { id := id
      typeName := typeName
      price :=
        { BasePrice := basePrice
          AdjustedPrice := adjustedPrice
          CustomerContextualPrice := adjustedPrice
          MaxVariantPrice :=
            if truthyNum maxVariantPrice then maxVariantPrice else adjustedPrice
          MinVariantPrice :=
            if truthyNum minVariantPrice then minVariantPrice else adjustedPrice }
      savingsText := savingsPriceResourceText
      freePriceText := freePriceResourceText
      originalPriceText := originalPriceResourceText
      currentPriceText := currentPriceResourceText
      isPriceMinMaxEnabled := isPriceMinMaxEnabled
      priceResources := priceResources }

/-- Embedding of `getRatingAriaLabel` (lines 376-382). -/
def getRatingAriaLabel (rating : Option ℚ) (ratingAriaLabelText : Option String) :
    String :=
  if truthyNum rating && truthyStr ratingAriaLabelText then
    formatS (ratingAriaLabelText.getD "") [toFixed2 (rating.getD 0), "5"]
  else ""

/-- Embedding of `getReviewAriaLabel` (lines 390-395). -/
def getReviewAriaLabel (reviewCount : Option Nat)
    (ratingCountAriaLabelText : Option String) : String :=
  if truthyNat reviewCount && truthyStr ratingCountAriaLabelText then
    formatS (ratingCountAriaLabelText.getD "") [natToStr (reviewCount.getD 0)]
  else ""

/-- Embedding of `renderLabel` (lines 407-419). -/
def renderLabel (name price : Option String) (rating : Option ℚ)
    (ratingAriaLabelText : Option String) (reviewCount : Option Nat)
    (ratingCountAriaLabelText : Option String) : String :=
  let reviewCountArialableText :=
    getReviewAriaLabel reviewCount (some (ratingCountAriaLabelText.getD ""))
  (name.getD "") ++ " " ++ (price.getD "") ++ " "
    ++ getRatingAriaLabel rating ratingAriaLabelText
    ++ (if reviewCountArialableText ≠ "" then " " ++ reviewCountArialableText else "")

/-- Embedding of `renderProductPlacementImage` (lines 431-452). -/
def renderProductPlacementImage (productCardimageSettings : Option ImageSettings)
    (gridSettings : Option GridSettings) (imageUrl fallbackImageUrl altText : Option String) :
    Option ImageView :=
  if truthyStr imageUrl = false ∨ gridSettings = Option.none
      ∨ productCardimageSettings = Option.none then Option.none
  else
    some
      { src := imageUrl.getD ""
        altText := if truthyStr altText then altText.getD "" else ""
        fallBackSrc := fallbackImageUrl
        imageSettings :=
          { (productCardimageSettings.getD { cropFocalRegion := Option.none }) with
              cropFocalRegion := some true } }

/-- Embedding of `renderRating` (lines 525-554). -/
def renderRating (ratingCountAriaLabel : Option String) (typeName id : String)
    (avgRating : Option ℚ) (totalRatings : Option Nat) (ariaLabel : Option String) :
    Option RatingComponentView :=
  if truthyNum avgRating = false then Option.none
  else
    some
      { id := id
        typeName := typeName
        avgRating := avgRating.getD 0
        ratingCount := totalRatings.map natToStr
        ariaLabel := getRatingAriaLabel avgRating ariaLabel
        ratingCountAriaLabel := getReviewAriaLabel totalRatings ratingCountAriaLabel }

/-! ### Cart button (lines 555-596) -/

/-- Embedding of the `find` over the dimension availability list inside
`_renderCartButton` (lines 570-577): match by truthy master product
identifier. -/
def productDimensionAvailabilities (dims : Option (List DimAvail))
    (product : ProductSearchResult) : Option DimAvail :=
  match dims with
  | Option.none => Option.none
  | some l =>
    l.find? fun da =>
      hasElementsO (some l) && truthyNat da.masterProductId
        && decide (da.masterProductId = product.MasterProductId)

/-- Embedding of `_renderCartButton` (lines 555-596): the add-to-cart
component receives `hasAvailableProducts` straight from the matched
entry's `isDisabled` field. -/
def renderCartButton (dims : Option (List DimAvail))
    (product : ProductSearchResult) : CartButtonView :=
  { addToCartText := "Add to cart"
    outOfStockText := "Out of stock"
    hasAvailableProducts :=
      (productDimensionAvailabilities dims product).bind DimAvail.isDisabled
    availableQuantity := 1
    product1 :=
      { RecordId := product.RecordId
        ItemId := product.ItemId
        Name := product.Name
        Description := product.Description
        ProductTypeValue := product.RecordId
        DefaultUnitOfMeasure := product.DefaultUnitOfMeasure
        BasePrice := product.BasePrice
        Price := product.Price
        AdjustedPrice := product.Price
        MasterProductId := product.MasterProductId
        PrimaryImageUrl := product.PrimaryImageUrl
        ExtensionProperties := product.ExtensionProperties } }

/-! ### The product card component -/

/-- The component's props (`IProductComponentProps`), with `data.product`
flattened to `product` and the request context folded into
`SiteConfig`. -/
structure ProductComponentProps where
  product : Option ProductSearchResult
  className : Option String
  imageSettings : Option ImageSettings
  gridSettings : Option GridSettings
  savingsText : Option String
  freePriceText : Option String
  originalPriceText : Option String
  currentPriceText : Option String
  ratingAriaLabel : Option String
  ratingCountAriaLabel : Option String
  allowBack : Option Bool
  typeName : String
  id : String
  quickViewButton : Bool
  inventoryLabel : Option String
  isPriceMinMaxEnabled : Option Bool
  priceResources : Option PriceResources
  dimensionAvailabilities : Option (List DimAvail)
  swatchItemAriaLabel : Option String

/-- The rendered card (the fragment returned at lines 597-649, on the
initial render where no swatch has been interacted with yet). -/
structure ProductCardView where
  productPageUrl : String
  ariaLabel : String
  image : Option ImageView
  title : Option String
  dimensions : Option (List SwatchRow)
  price : Option PriceComponentView
  unitOfMeasure : Option UnitOfMeasureView
  description : Option DescriptionView
  rating : Option RatingComponentView
  availability : Option AvailabilityView
  cartButton : CartButtonView
  quickView : Bool

/-- Embedding of the `ProductCard` functional component (lines 81-650):
`null` when `data.product` is absent, otherwise the assembled card on its
initial render. -/
def ProductCard (cfg : SiteConfig) (props : ProductComponentProps) :
    Option ProductCardView :=
  match props.product with
  | Option.none => Option.none
  | some product =>
    let productUrl0 := cfg.getProductPageUrlSync (product.Name.getD "") product.RecordId
    let productUrl :=
      if truthyBool props.allowBack ∧ productUrl0 ≠ "" then
        updateProductUrl productUrl0 "back=true"
      else productUrl0
    let productPageUrlFromSwatch :=
      getProductPageUrlFromDefaultSwatch cfg productUrl (some product)
    let swatchRows :=
      swatchItemsOf cfg props.dimensionAvailabilities props.swatchItemAriaLabel product
    let isUnitOfMeasureEnabled :=
      cfg.unitOfMeasureDisplayType = some "buyboxAndBrowse"
    some
      { productPageUrl := productPageUrlFromSwatch
        ariaLabel :=
          renderLabel product.Name (some (cfg.formatCurrency product.Price))
            product.AverageRating props.ratingAriaLabel product.TotalRatings
            props.ratingCountAriaLabel
        image :=
          renderProductPlacementImage props.imageSettings props.gridSettings
            (initialProductImageUrl cfg (some product)) product.PrimaryImageUrl
            product.Name
        title := product.Name
        dimensions := if swatchRows = [] then Option.none else some swatchRows
        price :=
          renderPrice props.typeName props.id product.BasePrice product.Price
            product.MaxVariantPrice product.MinVariantPrice props.savingsText
            props.freePriceText props.originalPriceText props.currentPriceText
            props.isPriceMinMaxEnabled props.priceResources
        unitOfMeasure :=
          if isUnitOfMeasureEnabled then
            renderProductUnitOfMeasure product.DefaultUnitOfMeasure
          else Option.none
        description := renderDescription product.Description
        rating :=
          if cfg.hideRating then Option.none
          else
            renderRating props.ratingCountAriaLabel props.typeName props.id
              product.AverageRating product.TotalRatings props.ratingAriaLabel
        availability := renderProductAvailability props.inventoryLabel
        cartButton := renderCartButton props.dimensionAvailabilities product
        quickView := props.quickViewButton }

/-! ### Theorems -/

/-- The pathname of a URL string. -/
def urlPath (u : String) : String := ⟨urlPathL u.data⟩

/-- The raw query of a URL string (no leading question mark). -/
def urlQuery (u : String) : String := ⟨urlQueryL u.data⟩

theorem jsAssignSearch_plain (l : LC) (hne : l ≠ []) (h0 : l.head? ≠ some '?') :
    jsAssignSearch l = '?' :: l := by
  cases l with
  | nil => exact absurd rfl hne
  | cons a r =>
    have ha : ¬(a = '?') := by
      intro hq
      exact h0 (by rw [hq]; rfl)
    simp [jsAssignSearch, ha]

theorem jsAssignSearch_qmark (b : LC) (hb : b ≠ []) :
    jsAssignSearch ('?' :: b) = '?' :: b := by
  simp [jsAssignSearch, hb]

theorem data_ne_nil_of_ne_empty (s : String) (h : s ≠ "") : s.data ≠ [] := by
  intro hnil
  exact h (String.ext (by rw [hnil]))

/-- C5. `updateProductUrl` keeps the pathname and appends the query
parameter: it joins with an ampersand when the URL already has a query
string and starts a new query string otherwise. -/
theorem c5_updateProductUrl_appends (u qs : String)
    (h1 : qs ≠ "") (h2 : qs.data.head? ≠ some '?') :
    updateProductUrl u qs =
      urlPath u ++
        (if urlQuery u = "" then "?" ++ qs else "?" ++ urlQuery u ++ "&" ++ qs) := by
  have hqs : qs.data ≠ [] := data_ne_nil_of_ne_empty qs h1
  apply String.ext
  rcases hq : urlQueryL u.data with _ | ⟨x, xs⟩
  · have hq' : urlQuery u = "" := String.ext (by simp [urlQuery, hq])
    rw [if_pos hq']
    show updateProductUrlL u.data qs.data = (urlPath u ++ ("?" ++ qs)).data
    rw [updateProductUrlL, hq, if_pos rfl, jsAssignSearch_plain qs.data hqs h2]
    simp [urlPath, String.data_append]
  · have hq' : ¬(urlQuery u = "") := by
      intro hcontra
      have : urlQueryL u.data = [] := by
        have := congrArg String.data hcontra
        simpa [urlQuery] using this
      rw [hq] at this
      exact absurd this (by simp)
    rw [if_neg hq']
    show updateProductUrlL u.data qs.data
      = (urlPath u ++ ("?" ++ urlQuery u ++ "&" ++ qs)).data
    rw [updateProductUrlL, hq, if_neg (by simp),
      jsAssignSearch_qmark _ (by simp)]
    simp [urlPath, urlQuery, String.data_append, hq]

/-- Witness for C5 at a concrete URL and parameter. -/
theorem c5_witness :
    updateProductUrl "/p?a=1" "color=red" = "/p?a=1&color=red" := by
  rw [c5_updateProductUrl_appends "/p?a=1" "color=red" (by decide) (by decide)]
  decide

/-- The page URL produced by the swatch callback, before state packing. -/
theorem updatePageAndImageUrl_url (cfg : SiteConfig) (st : CardState)
    (w : ISwatchItem) (hblank : isNullOrWhitespace (some w.value) = false) :
    (updatePageAndImageUrl cfg st w).productPageUrl =
      if strIncludes st.productPageUrl w.dimensionType then
        updateProductUrl ⟨deleteParamL st.productPageUrl.data w.dimensionType.data⟩
          (w.dimensionType ++ "=" ++ w.value)
      else updateProductUrl st.productPageUrl (w.dimensionType ++ "=" ++ w.value) := by
  rw [updatePageAndImageUrl]
  rw [if_neg (by rw [hblank]; simp)]
  dsimp only
  split <;> (split <;> rfl)

/-- The image produced by the swatch callback. -/
theorem updatePageAndImageUrl_image (cfg : SiteConfig) (st : CardState)
    (w : ISwatchItem) :
    (updatePageAndImageUrl cfg st w).productImageUrl =
      if isNullOrWhitespace (some w.value) = false
          ∧ w.dimensionType = DimensionTypes.color then
        cfg.generateImageUrl (headOfOpt w.productImageUrls)
      else st.productImageUrl := by
  rw [updatePageAndImageUrl]
  by_cases hb : isNullOrWhitespace (some w.value) = true
  · rw [if_pos hb]
    rw [if_neg (by simp [hb])]
  · rw [if_neg hb]
    dsimp only
    have hb2 : isNullOrWhitespace (some w.value) = false := by simpa using hb
    by_cases hc : w.dimensionType = DimensionTypes.color
    · rw [if_pos hc]
      rw [if_pos (And.intro hb2 hc)]
    · rw [if_neg hc]
      rw [if_neg (show ¬(isNullOrWhitespace (some w.value) = false
        ∧ w.dimensionType = DimensionTypes.color) from fun hand => hc hand.2)]

/-- Central computation for C2: the parameters of the rewritten URL are
the old ones (with every parameter keyed by the selected dimension
removed, when the URL mentioned the dimension) followed by the freshly
appended pair. -/
theorem c2_params_core (u e v : LC) (he : e ≠ [])
    (hech : ∀ c ∈ e, c ≠ '&' ∧ c ≠ '=' ∧ c ≠ '?') (hv : '&' ∉ v) :
    parseQ (urlQueryL
        (if hasInfix u e then updateProductUrlL (deleteParamL u e) (e ++ '=' :: v)
         else updateProductUrlL u (e ++ '=' :: v)))
      = (if hasInfix u e then
          (parseQ (urlQueryL u)).filter fun kv => decide ¬(kv.1 = e)
         else parseQ (urlQueryL u)) ++ [(e, v)] := by
  have heAmp : '&' ∉ e := fun hmem => (hech '&' hmem).1 rfl
  have heEq : '=' ∉ e := fun hmem => (hech '=' hmem).2.1 rfl
  have hqs_ne : e ++ '=' :: v ≠ [] := by simp
  have hqs_head : ∀ r, e ++ '=' :: v ≠ '?' :: r := by
    cases e with
    | nil => exact absurd rfl he
    | cons a as =>
      intro r hcontra
      have ha : a = '?' := by
        have := congrArg List.head? hcontra
        simpa using this
      exact (hech a (by simp)).2.2 ha
  have hparse_qs : parseQ (e ++ '=' :: v) = [(e, v)] :=
    parseQ_single e v heAmp heEq hv
  by_cases hinc : hasInfix u e = true
  · rw [if_pos hinc, if_pos hinc]
    obtain ⟨_, hparams⟩ :=
      updateProductUrlL_spec (deleteParamL u e) (e ++ '=' :: v) hqs_ne hqs_head
    rw [hparams, (deleteParamL_spec u e).2, hparse_qs]
  · rw [if_neg hinc, if_neg hinc]
    obtain ⟨_, hparams⟩ := updateProductUrlL_spec u (e ++ '=' :: v) hqs_ne hqs_head
    rw [hparams, hparse_qs]

/-- C2 (amended). Selecting a swatch with a non-blank value whose
dimension key and value stay clear of the query metacharacters sets the
page URL's parameter for that dimension to exactly the selected value
(any prior occurrence removed), and leaves the value of every other
parameter unchanged. -/
theorem c2_swatch_updates_url (cfg : SiteConfig) (st : CardState)
    (w : ISwatchItem) (d : String)
    (hblank : isNullOrWhitespace (some w.value) = false)
    (hv : '&' ∉ w.value.data)
    (he : w.dimensionType.data ≠ [])
    (hech : ∀ c ∈ w.dimensionType.data, c ≠ '&' ∧ c ≠ '=' ∧ c ≠ '?') :
    getQueryParam (updatePageAndImageUrl cfg st w).productPageUrl w.dimensionType
      = some w.value
    ∧ paramsWithKey (updatePageAndImageUrl cfg st w).productPageUrl w.dimensionType
      = [(w.dimensionType.data, w.value.data)]
    ∧ (d ≠ w.dimensionType →
        getQueryParam (updatePageAndImageUrl cfg st w).productPageUrl d
          = getQueryParam st.productPageUrl d) := by
  set e := w.dimensionType.data with hedef
  set v := w.value.data with hvdef
  set u := st.productPageUrl.data with hudef
  have hqdata : (w.dimensionType ++ "=" ++ w.value).data = e ++ '=' :: v := by
    simp [String.data_append]
  have hurl : (updatePageAndImageUrl cfg st w).productPageUrl.data =
      (if hasInfix u e then updateProductUrlL (deleteParamL u e) (e ++ '=' :: v)
       else updateProductUrlL u (e ++ '=' :: v)) := by
    rw [updatePageAndImageUrl_url cfg st w hblank]
    by_cases hinc : strIncludes st.productPageUrl w.dimensionType = true
    · rw [if_pos hinc, if_pos (by exact hinc)]
      show updateProductUrlL (deleteParamL u e) (w.dimensionType ++ "=" ++ w.value).data
        = updateProductUrlL (deleteParamL u e) (e ++ '=' :: v)
      rw [hqdata]
    · rw [if_neg hinc, if_neg (by exact hinc)]
      show updateProductUrlL u (w.dimensionType ++ "=" ++ w.value).data
        = updateProductUrlL u (e ++ '=' :: v)
      rw [hqdata]
  have hparams : parseQ (urlQueryL (updatePageAndImageUrl cfg st w).productPageUrl.data)
      = (if hasInfix u e then
          (parseQ (urlQueryL u)).filter fun kv => decide ¬(kv.1 = e)
         else parseQ (urlQueryL u)) ++ [(e, v)] := by
    rw [hurl]
    exact c2_params_core u e v he hech hv
  have hfind_none : (if hasInfix u e then
        (parseQ (urlQueryL u)).filter fun kv => decide ¬(kv.1 = e)
       else parseQ (urlQueryL u)).find? (fun kv => decide (kv.1 = e)) = Option.none := by
    by_cases hinc : hasInfix u e = true
    · rw [if_pos hinc]
      exact find?_filtered_key_none _ e
    · rw [if_neg hinc]
      rw [List.find?_eq_none]
      intro kv hkv
      have := no_key_of_not_includes u e (by simpa using hinc) kv hkv
      simp [this]
  refine ⟨?_, ?_, ?_⟩
  · rw [getQueryParam, hparams, List.find?_append, hfind_none]
    rw [List.find?_cons_of_pos _ (by simp)]
    rfl
  · rw [paramsWithKey, hparams, List.filter_append]
    have h1 : (if hasInfix u e then
          (parseQ (urlQueryL u)).filter fun kv => decide ¬(kv.1 = e)
         else parseQ (urlQueryL u)).filter (fun kv => decide (kv.1 = e)) = [] := by
      rw [List.filter_eq_nil]
      intro kv hkv
      by_cases hinc : hasInfix u e = true
      · rw [if_pos hinc] at hkv
        have := List.of_mem_filter hkv
        simpa using this
      · rw [if_neg hinc] at hkv
        have := no_key_of_not_includes u e (by simpa using hinc) kv hkv
        simp [this]
    rw [h1, List.filter_cons_of_pos (by simp), List.filter_nil, List.nil_append]
  · intro hd
    have hdne : d.data ≠ e := by
      intro hcontra
      exact hd (String.ext (by rw [hcontra]))
    rw [getQueryParam, getQueryParam, hparams, List.find?_append]
    have hlast : List.find? (fun kv => decide (kv.1 = d.data)) [(e, v)] = Option.none := by
      rw [List.find?_eq_none]
      intro kv hkv
      simp only [List.mem_singleton] at hkv
      subst hkv
      simp only [decide_eq_true_eq]
      exact fun hcontra => hdne hcontra.symm
    rw [hlast]
    by_cases hinc : hasInfix u e = true
    · rw [if_pos hinc, find?_filter_ne_key _ d.data e hdne, Option.or_none]
    · rw [if_neg hinc, Option.or_none]

/-- A concrete configuration for witnesses: pre-selection on color,
stock check off, identity image URL generation. -/
def demoCfg : SiteConfig :=
  { dimensionToPreSelectInProductCard := "color"
    enableStockCheck := false
    hideRating := false
    unitOfMeasureDisplayType := some "buyboxAndBrowse"
    shouldDisplayAsSwatch := fun _ => true
    generateImageUrl := fun o => o
    getProductPageUrlSync := fun _ _ => "/p"
    formatCurrency := fun _ => "10.00" }

/-- A concrete card state on a URL that already carries two query
parameters. -/
def demoState : CardState :=
  { productPageUrl := "/p?color=blue&size=m"
    productImageUrl := some "img.jpg"
    selectedSwatchItems := [] }

/-- A concrete color swatch selection. -/
def demoColorSwatch : ISwatchItem :=
  { itemId := "1-color-red"
    value := "red"
    dimensionType := "color"
    colorHexCode := Option.none
    imageUrl := Option.none
    productImageUrls := Option.none
    isDefault := Option.none
    swatchItemAriaLabel := ""
    isDisabled := Option.none }

/-- Witness for C2: selecting `color=red` on a URL already carrying
`color=blue&size=m` replaces the color parameter and preserves the size
parameter. -/
theorem c2_witness :
    getQueryParam (updatePageAndImageUrl demoCfg demoState demoColorSwatch).productPageUrl
        "color" = some "red"
    ∧ getQueryParam (updatePageAndImageUrl demoCfg demoState demoColorSwatch).productPageUrl
        "size" = getQueryParam "/p?color=blue&size=m" "size" := by
  have h := c2_swatch_updates_url demoCfg demoState demoColorSwatch "size"
    (by decide) (by decide) (by decide) (by decide)
  exact ⟨h.1, h.2.2 (by decide)⟩

/-- A swatch selection whose value contains an ampersand. -/
def ampSwatch : ISwatchItem :=
  { itemId := "1-color-amp"
    value := "red&blue"
    dimensionType := "color"
    colorHexCode := Option.none
    imageUrl := Option.none
    productImageUrls := Option.none
    isDefault := Option.none
    swatchItemAriaLabel := ""
    isDisabled := Option.none }

/-- A plain card state with no query string. -/
def plainState : CardState :=
  { productPageUrl := "/p"
    productImageUrl := Option.none
    selectedSwatchItems := [] }

/-- Counterexample for C2 as stated: for the non-blank swatch value
`red&blue` the raw interpolation `color=red&blue` makes the color
parameter come out as `red`, not the selected value. -/
theorem c2_counterexample :
    isNullOrWhitespace (some ampSwatch.value) = false
    ∧ getQueryParam (updatePageAndImageUrl demoCfg plainState ampSwatch).productPageUrl
        "color" = some "red"
    ∧ (some "red" : Option String) ≠ some ampSwatch.value := by
  refine ⟨by decide, by decide, by decide⟩

/-- C6. The swatch interaction callback never touches the displayed image
for a non-color dimension, and for a color dimension with a non-blank
value it recomputes the image from the swatch's product image URLs. -/
theorem c6_image_frame (cfg : SiteConfig) (st : CardState) (w : ISwatchItem) :
    (w.dimensionType ≠ DimensionTypes.color →
      (updatePageAndImageUrl cfg st w).productImageUrl = st.productImageUrl)
    ∧ (w.dimensionType = DimensionTypes.color →
        isNullOrWhitespace (some w.value) = false →
        (updatePageAndImageUrl cfg st w).productImageUrl
          = cfg.generateImageUrl (headOfOpt w.productImageUrls)) := by
  constructor
  · intro hne
    rw [updatePageAndImageUrl_image]
    rw [if_neg (show ¬(isNullOrWhitespace (some w.value) = false
      ∧ w.dimensionType = DimensionTypes.color) from fun hand => hne hand.2)]
  · intro hc hb
    rw [updatePageAndImageUrl_image]
    rw [if_pos (And.intro hb hc)]

/-- A concrete size swatch selection. -/
def demoSizeSwatch : ISwatchItem :=
  { itemId := "1-size-m"
    value := "l"
    dimensionType := "size"
    colorHexCode := Option.none
    imageUrl := Option.none
    productImageUrls := some ["other.jpg"]
    isDefault := Option.none
    swatchItemAriaLabel := ""
    isDisabled := Option.none }

/-- Witness for C6: a size selection leaves the displayed image intact. -/
theorem c6_witness :
    (updatePageAndImageUrl demoCfg demoState demoSizeSwatch).productImageUrl
      = some "img.jpg" :=
  (c6_image_frame demoCfg demoState demoSizeSwatch).1 (by decide)

theorem str_ne_empty_iff (s : String) : s ≠ "" ↔ s.data ≠ [] := by
  constructor
  · exact data_ne_nil_of_ne_empty s
  · intro hd hs
    exact hd (by rw [hs])

theorem natToStr_ne_empty (n : Nat) : natToStr n ≠ "" := by
  rw [str_ne_empty_iff]
  exact natDigits_ne_nil n

theorem toFixed2_ne_empty (q : ℚ) : toFixed2 q ≠ "" := by
  rw [str_ne_empty_iff, toFixed2]
  simp only [String.data_append]
  intro hcontra
  rcases List.append_eq_nil.mp hcontra with ⟨h1, -⟩
  rcases List.append_eq_nil.mp h1 with ⟨h2, -⟩
  rcases List.append_eq_nil.mp h2 with ⟨-, h3⟩
  simp at h3

theorem formatS_ne_empty (template : String) (args : List String)
    (ht : template ≠ "") (hargs : ∀ a ∈ args, a ≠ "") :
    formatS template args ≠ "" := by
  rw [str_ne_empty_iff]
  show formatL template.data (args.map String.data) ≠ []
  refine formatL_ne_nil _ _ ((str_ne_empty_iff template).mp ht) ?_
  intro a ha
  rcases List.mem_map.mp ha with ⟨s, hs, hsa⟩
  rw [← hsa]
  exact (str_ne_empty_iff s).mp (hargs s hs)

/-- C1 counterexample: the description renderer and the price renderer
produce an element even when every optional input is absent. -/
theorem c1_counterexample :
    renderDescription Option.none ≠ Option.none
    ∧ renderPrice "t" "i" Option.none Option.none Option.none Option.none
        Option.none Option.none Option.none Option.none Option.none Option.none
        ≠ Option.none := by
  constructor <;> simp [renderDescription, renderPrice]

/-- C1 (amended). The unit-of-measure, availability, and rating renderers
return no element exactly when their required input is absent or falsy
(empty, respectively zero); the description and price renderers always
produce an element. All renderers are pure functions of their inputs. -/
theorem c1_null_renderers :
    (∀ u, renderProductUnitOfMeasure u = Option.none ↔ truthyStr u = false)
    ∧ (∀ l, renderProductAvailability l = Option.none ↔ truthyStr l = false)
    ∧ (∀ rc t i r tr al,
        renderRating rc t i r tr al = Option.none ↔ truthyNum r = false)
    ∧ (∀ d, renderDescription d ≠ Option.none)
    ∧ (∀ t i b a mx mn s f o c pm pr,
        renderPrice t i b a mx mn s f o c pm pr ≠ Option.none) := by
  refine ⟨?_, ?_, ?_, ?_, ?_⟩
  · intro u
    by_cases h : truthyStr u = false <;>
      simp [renderProductUnitOfMeasure, h]
  · intro l
    by_cases h : truthyStr l = false <;>
      simp [renderProductAvailability, h]
  · intro rc t i r tr al
    by_cases h : truthyNum r = false <;>
      simp [renderRating, h]
  · intro d
    simp [renderDescription]
  · intro t i b a mx mn s f o c pm pr
    simp [renderPrice]

/-- C9. When the average rating is absent or zero, `renderRating` renders
nothing. -/
theorem c9_rating_zero_or_absent (rc : Option String) (t i : String)
    (tr : Option Nat) (al : Option String) :
    renderRating rc t i Option.none tr al = Option.none
    ∧ renderRating rc t i (some 0) tr al = Option.none := by
  constructor <;> simp [renderRating, truthyNum]

/-- C8. The rating aria label is non-empty exactly when a truthy numeric
rating and a non-empty label template are both present, and then it is
the template formatted with the fixed-point score and the maximum "5";
the review aria label is non-empty exactly when a truthy review count and
a non-empty template are both present; in every other case both helpers
return the empty string. -/
theorem c8_aria_labels (r : Option ℚ) (t : Option String) (c : Option Nat)
    (ct : Option String) :
    (getRatingAriaLabel r t ≠ "" ↔ truthyNum r = true ∧ truthyStr t = true)
    ∧ (truthyNum r = true → truthyStr t = true →
        getRatingAriaLabel r t = formatS (t.getD "") [toFixed2 (r.getD 0), "5"])
    ∧ (getReviewAriaLabel c ct ≠ "" ↔ truthyNat c = true ∧ truthyStr ct = true) := by
  have htD : truthyStr t = true → t.getD "" ≠ "" := by
    intro h
    cases t with
    | none => simp [truthyStr] at h
    | some s => simpa [truthyStr] using h
  have hctD : truthyStr ct = true → ct.getD "" ≠ "" := by
    intro h
    cases ct with
    | none => simp [truthyStr] at h
    | some s => simpa [truthyStr] using h
  refine ⟨?_, ?_, ?_⟩
  · constructor
    · intro hne
      by_cases h1 : truthyNum r = true
      · by_cases h2 : truthyStr t = true
        · exact ⟨h1, h2⟩
        · exact absurd (by simp [getRatingAriaLabel, h2]) hne
      · exact absurd (by simp [getRatingAriaLabel, h1]) hne
    · rintro ⟨h1, h2⟩
      rw [getRatingAriaLabel, if_pos (by rw [h1, h2]; rfl)]
      exact formatS_ne_empty _ _ (htD h2)
        (by
          intro a ha
          rcases List.mem_cons.mp ha with h | h
          · rw [h]; exact toFixed2_ne_empty _
          · simp only [List.mem_singleton] at h
            rw [h]; decide)
  · intro h1 h2
    rw [getRatingAriaLabel, if_pos (by rw [h1, h2]; rfl)]
  · constructor
    · intro hne
      by_cases h1 : truthyNat c = true
      · by_cases h2 : truthyStr ct = true
        · exact ⟨h1, h2⟩
        · exact absurd (by simp [getReviewAriaLabel, h2]) hne
      · exact absurd (by simp [getReviewAriaLabel, h1]) hne
    · rintro ⟨h1, h2⟩
      rw [getReviewAriaLabel, if_pos (by rw [h1, h2]; rfl)]
      exact formatS_ne_empty _ _ (hctD h2)
        (by
          intro a ha
          simp only [List.mem_singleton] at ha
          rw [ha]
          exact natToStr_ne_empty _)

/-- Witness for C8 at a concrete rating and template. -/
theorem c8_witness :
    getRatingAriaLabel (some 4) (some "stars") = formatS "stars" [toFixed2 4, "5"]
    ∧ getReviewAriaLabel (some 2) Option.none = "" := by
  constructor
  · exact (c8_aria_labels (some 4) (some "stars") (some 2) Option.none).2.1
      (by decide) (by decide)
  · have h := (c8_aria_labels (some 4) (some "stars") (some 2) Option.none).2.2
    by_contra hne
    rcases h.mp hne with ⟨-, h2⟩
    simp [truthyStr] at h2

/-- C7. When the product input is absent the card renders nothing. -/
theorem c7_absent_product (cfg : SiteConfig) (props : ProductComponentProps)
    (h : props.product = Option.none) : ProductCard cfg props = Option.none := by
  rw [ProductCard, h]

/-- Props with no product. -/
def emptyProps : ProductComponentProps :=
  { product := Option.none
    className := Option.none
    imageSettings := Option.none
    gridSettings := Option.none
    savingsText := Option.none
    freePriceText := Option.none
    originalPriceText := Option.none
    currentPriceText := Option.none
    ratingAriaLabel := Option.none
    ratingCountAriaLabel := Option.none
    allowBack := Option.none
    typeName := "searchresult"
    id := "m1"
    quickViewButton := false
    inventoryLabel := Option.none
    isPriceMinMaxEnabled := Option.none
    priceResources := Option.none
    dimensionAvailabilities := Option.none
    swatchItemAriaLabel := Option.none }

/-- Witness for C7. -/
theorem c7_witness : ProductCard demoCfg emptyProps = Option.none :=
  c7_absent_product demoCfg emptyProps rfl

theorem option_or_self (o : Option String) : o.or o = o := by
  cases o <;> rfl

/-- C3 (amended). The initial card image: primary image when
pre-selection is off or no color swatch exists; the generated image of
the chosen swatch's first product image URL (with primary fallback) when
the chosen swatch has image URLs; primary image when it has none. The
chosen swatch is the first one flagged default, else the first swatch of
the color attribute. -/
theorem c3_default_swatch_image (cfg : SiteConfig) (p : ProductSearchResult) :
    (cfg.dimensionToPreSelectInProductCard = DimensionTypes.noDimension →
      initialProductImageUrl cfg (some p) = p.PrimaryImageUrl)
    ∧ (getDefaultColorSwatchSelected (some p) = Option.none →
      initialProductImageUrl cfg (some p) = p.PrimaryImageUrl)
    ∧ (∀ sw, cfg.dimensionToPreSelectInProductCard ≠ DimensionTypes.noDimension →
        getDefaultColorSwatchSelected (some p) = some sw →
        (∀ u rest, sw.ProductImageUrls = some (u :: rest) →
          initialProductImageUrl cfg (some p)
            = (cfg.generateImageUrl (some u)).or p.PrimaryImageUrl)
        ∧ (hasElementsO sw.ProductImageUrls = false →
          initialProductImageUrl cfg (some p) = p.PrimaryImageUrl))
    ∧ (∀ attrs attr s ss,
        p.AttributeValues = some attrs →
        attrs.find? (fun a =>
          decide ((a.KeyName.map toLowerS) = some DimensionTypes.color)) = some attr →
        attr.Swatches = some (s :: ss) →
        getDefaultColorSwatchSelected (some p)
          = some ((((s :: ss).find? fun i => decide (i.IsDefault = some true))).getD s)) := by
  refine ⟨?_, ?_, ?_, ?_⟩
  · intro hpre
    rw [initialProductImageUrl, getProductImageUrlFromDefaultColorSwatch, if_pos hpre]
    exact option_or_self _
  · intro hsw
    rw [initialProductImageUrl, getProductImageUrlFromDefaultColorSwatch]
    by_cases hpre : cfg.dimensionToPreSelectInProductCard = DimensionTypes.noDimension
    · rw [if_pos hpre]
      exact option_or_self _
    · rw [if_neg hpre, hsw]
      exact option_or_self _
  · intro sw hpre hsw
    constructor
    · intro u rest hurls
      rw [initialProductImageUrl, getProductImageUrlFromDefaultColorSwatch,
        if_neg hpre]
      simp only [hsw, hurls]
      rfl
    · intro hempty
      rw [initialProductImageUrl, getProductImageUrlFromDefaultColorSwatch,
        if_neg hpre]
      rcases hurls : sw.ProductImageUrls with _ | ⟨_ | ⟨u, rest⟩⟩
      · simp only [hsw, hurls]
        exact option_or_self _
      · simp only [hsw, hurls]
        exact option_or_self _
      · rw [hurls] at hempty
        simp [hasElementsO] at hempty
  · intro attrs attr s ss hattrs hfind hsw
    simp only [getDefaultColorSwatchSelected, hattrs, hfind, hsw]

/-- A default-flagged color swatch carrying no product image URLs. -/
def noImagesSwatch : AttributeSwatch :=
  { SwatchValue := some "red"
    SwatchColorHexCode := Option.none
    SwatchImageUrl := Option.none
    ProductImageUrls := some []
    IsDefault := some true }

/-- A product whose color attribute has exactly the image-less default
swatch. -/
def c3Product : ProductSearchResult :=
  { RecordId := 7
    Name := some "Shirt"
    Description := Option.none
    ItemId := Option.none
    BasePrice := Option.none
    Price := Option.none
    MaxVariantPrice := Option.none
    MinVariantPrice := Option.none
    PrimaryImageUrl := some "primary.jpg"
    AverageRating := Option.none
    TotalRatings := Option.none
    DefaultUnitOfMeasure := Option.none
    MasterProductId := Option.none
    AttributeValues := some
      [{ KeyName := some "Color", RecordId := some 1, Swatches := some [noImagesSwatch] }]
    ExtensionProperties := Option.none }

/-- Counterexample for C3 as stated: pre-selection is enabled and a
default-flagged color swatch is chosen, yet the rendered image is the
primary image, not an image derived from the swatch (which has no
product image URLs at all). -/
theorem c3_counterexample :
    demoCfg.dimensionToPreSelectInProductCard ≠ DimensionTypes.noDimension
    ∧ getDefaultColorSwatchSelected (some c3Product) = some noImagesSwatch
    ∧ noImagesSwatch.IsDefault = some true
    ∧ initialProductImageUrl demoCfg (some c3Product) = some "primary.jpg"
    ∧ ¬∃ u, (∃ rest, noImagesSwatch.ProductImageUrls = some (u :: rest))
        ∧ initialProductImageUrl demoCfg (some c3Product)
          = demoCfg.generateImageUrl (some u) := by
  refine ⟨by decide, by decide, rfl, by decide, ?_⟩
  rintro ⟨u, ⟨rest, hcontra⟩, -⟩
  simp [noImagesSwatch] at hcontra

/-- A default-flagged color swatch with a product image URL. -/
def redSwatch : AttributeSwatch :=
  { SwatchValue := some "red"
    SwatchColorHexCode := some "#ff0000"
    SwatchImageUrl := Option.none
    ProductImageUrls := some ["red.jpg"]
    IsDefault := some true }

/-- A product whose color attribute carries `redSwatch`. -/
def c3GoodProduct : ProductSearchResult :=
  { RecordId := 8
    Name := some "Coat"
    Description := Option.none
    ItemId := Option.none
    BasePrice := Option.none
    Price := Option.none
    MaxVariantPrice := Option.none
    MinVariantPrice := Option.none
    PrimaryImageUrl := some "primary.jpg"
    AverageRating := Option.none
    TotalRatings := Option.none
    DefaultUnitOfMeasure := Option.none
    MasterProductId := Option.none
    AttributeValues := some
      [{ KeyName := some "Color", RecordId := some 2, Swatches := some [redSwatch] }]
    ExtensionProperties := Option.none }

/-- Witness for C3 (amended): with pre-selection enabled the initial
image is generated from the default swatch's first product image URL. -/
theorem c3_witness :
    initialProductImageUrl demoCfg (some c3GoodProduct) = some "red.jpg" := by
  have h := ((c3_default_swatch_image demoCfg c3GoodProduct).2.2.1 redSwatch
    (by decide) (by decide)).1 "red.jpg" [] (by decide)
  exact h

/-- The product used in the C4 failing input. -/
def c4Product : ProductSearchResult :=
  { RecordId := 9
    Name := some "Hat"
    Description := Option.none
    ItemId := Option.none
    BasePrice := Option.none
    Price := Option.none
    MaxVariantPrice := Option.none
    MinVariantPrice := Option.none
    PrimaryImageUrl := Option.none
    AverageRating := Option.none
    TotalRatings := Option.none
    DefaultUnitOfMeasure := Option.none
    MasterProductId := some 25
    AttributeValues := Option.none
    ExtensionProperties := Option.none }

/-- A matching availability entry that is disabled. -/
def c4Avail : DimAvail :=
  { masterProductId := some 25, value := some "red", isDisabled := some true }

/-- C4 failing input evaluated on the code: the availability list's entry
for the product's master identifier is disabled, yet the add-to-cart
sub-component's `hasAvailableProducts` flag comes out `true`, because the
code passes `isDisabled` through unnegated. -/
theorem c4_inverted_stock_flag :
    productDimensionAvailabilities (some [c4Avail]) c4Product = some c4Avail
    ∧ c4Avail.isDisabled = some true
    ∧ (renderCartButton (some [c4Avail]) c4Product).hasAvailableProducts = some true := by
  refine ⟨by decide, rfl, by decide⟩

/-- C10. Under an enabled pre-selection configuration, every rendered
swatch row whose swatches are color swatches and whose swatch list is
non-empty contains a swatch with the default flag set: either one was
already flagged truthy, or the code promoted the first swatch. -/
theorem c10_preselect_forces_default (cfg : SiteConfig)
    (avail : Option (List DimAvail)) (aria : Option String)
    (product : ProductSearchResult) (row : SwatchRow)
    (hrow : row ∈ swatchItemsOf cfg avail aria product)
    (hpre : cfg.dimensionToPreSelectInProductCard ≠ DimensionTypes.noDimension)
    (hne : row.swatches ≠ [])
    (hcolor : ∀ s ∈ row.swatches, s.dimensionType = DimensionTypes.color) :
    ∃ s ∈ row.swatches, s.isDefault = some true := by
  rw [swatchItemsOf] at hrow
  rcases hattrs : product.AttributeValues with _ | attrs
  · rw [hattrs] at hrow
    simp at hrow
  · rw [hattrs] at hrow
    simp only [List.mem_filterMap] at hrow
    obtain ⟨item, -, heq⟩ := hrow
    rw [swatchRowOf] at heq
    by_cases hdisp : cfg.shouldDisplayAsSwatch ((item.KeyName.map toLowerS).getD "") = false
    · rw [if_pos hdisp] at heq
      exact absurd heq (by simp)
    · rw [if_neg hdisp] at heq
      dsimp only at heq
      set dtv := (item.KeyName.map toLowerS).getD "" with hdtv
      set swatches := (item.Swatches.getD []).map
        (mkSwatchItem cfg avail aria item.RecordId dtv) with hswatches
      by_cases hcond : cfg.dimensionToPreSelectInProductCard ≠ DimensionTypes.noDimension
          ∧ swatches ≠ []
          ∧ (swatches.any fun s => truthyBool s.isDefault) = false
          ∧ dtv = DimensionTypes.color
      · rw [if_pos hcond] at heq
        obtain ⟨-, hne2, -, -⟩ := hcond
        rcases hsw : swatches with _ | ⟨s0, ss0⟩
        · exact absurd hsw hne2
        · rw [hsw] at heq
          simp only [Option.some.injEq] at heq
          subst heq
          exact ⟨{ s0 with isDefault := some true }, by simp, rfl⟩
      · rw [if_neg hcond] at heq
        simp only [Option.some.injEq] at heq
        subst heq
        simp only [not_and, ne_eq, not_not] at hcond
        rcases hsw : swatches with _ | ⟨s0, ss0⟩
        · exact absurd (by simpa using hsw) hne
        · have hdtvc : dtv = DimensionTypes.color := by
            have hs0 : s0 ∈ swatches := by rw [hsw]; exact List.mem_cons_self s0 ss0
            have hs0d : s0.dimensionType = DimensionTypes.color :=
              hcolor s0 (by simpa using hs0)
            rw [hswatches] at hs0
            rcases List.mem_map.mp hs0 with ⟨sw0, -, hsw0⟩
            rw [← hsw0] at hs0d
            simpa [mkSwatchItem] using hs0d
          have hany : (swatches.any fun s => truthyBool s.isDefault) = true := by
            by_contra hno
            have hno2 : (swatches.any fun s => truthyBool s.isDefault) = false :=
              Bool.not_eq_true _ ▸ (by simpa using hno)
            exact absurd hdtvc (by
              have := hcond hpre (by rw [hsw]; simp) hno2
              exact this)
          rcases List.any_eq_true.mp hany with ⟨s1, hs1, hs1d⟩
          rw [hsw] at hs1
          refine ⟨s1, by simpa using hs1, ?_⟩
          simpa [truthyBool] using hs1d

/-- A color attribute whose two swatches carry no default flag. -/
def c10Product : ProductSearchResult :=
  { RecordId := 11
    Name := some "Sock"
    Description := Option.none
    ItemId := Option.none
    BasePrice := Option.none
    Price := Option.none
    MaxVariantPrice := Option.none
    MinVariantPrice := Option.none
    PrimaryImageUrl := Option.none
    AverageRating := Option.none
    TotalRatings := Option.none
    DefaultUnitOfMeasure := Option.none
    MasterProductId := Option.none
    AttributeValues := some
      [{ KeyName := some "Color"
         RecordId := some 3
         Swatches := some
          [{ SwatchValue := some "red"
             SwatchColorHexCode := Option.none
             SwatchImageUrl := Option.none
             ProductImageUrls := Option.none
             IsDefault := Option.none }
           , { SwatchValue := some "blue"
               SwatchColorHexCode := Option.none
               SwatchImageUrl := Option.none
               ProductImageUrls := Option.none
               IsDefault := some false }] }]
    ExtensionProperties := Option.none }

/-- The swatch row the component renders for `c10Product`. -/
def c10Row : SwatchRow :=
  { recordId := some 3
    swatches :=
      [{ itemId := "3-color-red"
         value := "red"
         dimensionType := "color"
         colorHexCode := Option.none
         imageUrl := Option.none
         productImageUrls := Option.none
         isDefault := some true
         swatchItemAriaLabel := ""
         isDisabled := some false }
       , { itemId := "3-color-blue"
           value := "blue"
           dimensionType := "color"
           colorHexCode := Option.none
           imageUrl := Option.none
           productImageUrls := Option.none
           isDefault := some false
           swatchItemAriaLabel := ""
           isDisabled := some false }] }

/-- Witness for C10: with no swatch flagged default, the rendered row
still contains a default-flagged swatch. -/
theorem c10_witness : ∃ s ∈ c10Row.swatches, s.isDefault = some true := by
  refine c10_preselect_forces_default demoCfg Option.none Option.none c10Product c10Row
    ?_ (by decide) (by decide) (by decide)
  have hrows : swatchItemsOf demoCfg Option.none Option.none c10Product = [c10Row] := by
    decide
  rw [hrows]
  exact List.mem_singleton.mpr rfl

end ProductCardSpec
